import Mathlib

/-!
Verification of the teleport-tokscope IPC orchestration layer and its
companion utilities.

The development shallowly embeds three Python source files:

* `tokscope-enclave/security-service/security_service_subprocess.py` —
  the line-delimited IPC loop (`SecurityServiceSubprocess.run`), the request
  router (`handle_request`), the parameter assembler
  (`build_authenticated_params`) and the header generator
  (`generate_headers`).  The opaque signing primitives (XGorgon, XArgus,
  XLadon) are modelled as an explicit `Backend` record of possibly-failing
  functions, exactly as the spec treats them (black-box collaborators).
  Per-call entropy (`secrets.token_hex(16)`, `int(time.time())`) is passed
  in as explicit parameters.
* `tokscope-enclave/security-service/main.py` — the REST-facing wrapper's
  `generate_headers` endpoint with its per-computation fallback sentinels.
* `enclave-tools/get_compose_hash.py` — `sort_object`,
  `to_deterministic_json` and `get_compose_hash` over a model of Python/JSON
  values; `hashlib.sha256` is an external library primitive and is passed in
  as a function parameter.

Python dictionaries are modelled as association lists in insertion order
with `dictSet` (replace-in-place or append, matching `d[k] = v`),
`dictUpdate` (matching `d.update(e)`) and `dictGet` (matching `d.get(k)`).
-/

namespace Tokscope

/-- A scalar value as found in request parameter dictionaries: a string or
an integer.  Header values computed by the signing backends are also
`Value`s. -/
inductive Value where
  | s (s : String)
  | i (n : Int)
deriving DecidableEq

/-- Python `str()` on a scalar value. -/
def pyStr : Value → String
  | .s s => s
  | .i n => toString n

/-- Python `d.get(k)`: first binding of `k` in the association list, if any. -/
def dictGet : List (String × Value) → String → Option Value
  | [], _ => none
  | (k2, v) :: rest, k => if k2 = k then some v else dictGet rest k

/-- Python `d[k] = v` on a dict: replace the value at an existing key
in place, otherwise append the new binding at the end. -/
def dictSet : List (String × Value) → String → Value → List (String × Value)
  | [], k, v => [(k, v)]
  | (k2, v2) :: rest, k, v =>
      if k2 = k then (k, v) :: rest else (k2, v2) :: dictSet rest k v

/-- Python `d.update(e)`: set every binding of `e` into `d`, in order. -/
def dictUpdate (d : List (String × Value)) (e : List (String × Value)) :
    List (String × Value) :=
  e.foldl (fun acc p => dictSet acc p.1 p.2) d

/-- Uppercase hexadecimal digit for `n < 16`. -/
def hexUpper (n : Nat) : Char :=
  if n < 10 then Char.ofNat (48 + n) else Char.ofNat (55 + n)

/-- The UTF-8 encoding of one character, as byte values. -/
def utf8Bytes (c : Char) : List Nat :=
  let n := c.toNat
  if n < 0x80 then [n]
  else if n < 0x800 then [0xC0 + n / 0x40, 0x80 + n % 0x40]
  else if n < 0x10000 then
    [0xE0 + n / 0x1000, 0x80 + (n / 0x40) % 0x40, 0x80 + n % 0x40]
  else
    [0xF0 + n / 0x40000, 0x80 + (n / 0x1000) % 0x40,
     0x80 + (n / 0x40) % 0x40, 0x80 + n % 0x40]

/-- Percent-encoding `%XX` of one byte, uppercase hex. -/
def percentByte (b : Nat) : String :=
  String.mk ['%', hexUpper (b / 16 % 16), hexUpper (b % 16)]

/-- Model of `urllib.parse.quote_plus` on one character with the default safe set:
ASCII alphanumerics and `_.-~` pass through, space becomes `+`, everything
else is percent-encoded byte by byte. -/
def quotePlusChar (c : Char) : String :=
  if c.isAlphanum || c = '_' || c = '.' || c = '-' || c = '~' then
    String.singleton c
  else if c = ' ' then "+"
  else String.join ((utf8Bytes c).map percentByte)

/-- Model of `urllib.parse.quote_plus` on a string. -/
def quote_plus (s : String) : String :=
  String.join (s.toList.map quotePlusChar)

/-- Model of `urllib.parse.urlencode`: `quote_plus`-encoded `key=value` pairs joined
by `&`, in dictionary (insertion) order; values go through `str()` first. -/
def urlencode (params : List (String × Value)) : String :=
  String.intercalate "&"
    (params.map (fun p => quote_plus p.1 ++ "=" ++ quote_plus (pyStr p.2)))

/-- Field `sessionData.tokens`: the optional `device_id` / `install_id` entries. -/
structure Tokens where
  device_id : Option Value
  install_id : Option Value

/-- Field `sessionData.cookies`: absent, a list of `{name, value}` pairs, or a
single pre-joined string (the source distinguishes these with
`isinstance`). -/
inductive CookieField where
  | absent
  | pairs (cs : List (String × String))
  | raw (s : String)

/-- Record `sessionData`: optional tokens and an optional cookie field. -/
structure SessionData where
  tokens : Option Tokens
  cookies : CookieField

/-- Python truthiness of the cookie field (`if ... and session_data['cookies']:`):
an empty list and an empty string are falsy. -/
def cookieTruthy : CookieField → Bool
  | .absent => false
  | .pairs cs => !cs.isEmpty
  | .raw s => !s.isEmpty

/-- Cookie-string derivation from `build_authenticated_params` lines 96-101:
start from `''`; when the field is present and truthy, a list of pairs is
joined as `name=value` separated by `"; "`, and a string is used verbatim. -/
def deriveCookies (c : CookieField) : String :=
  if cookieTruthy c then
    match c with
    | .pairs cs => String.intercalate "; " (cs.map (fun p => p.1 ++ "=" ++ p.2))
    | .raw s => s
    | .absent => ""
  else ""

/-- The three opaque signing primitives used by the subprocess, as
possibly-failing functions (`Except` models a raised exception, carrying
`str(e)`):
`gorgon` is `XGorgon.get_value(params, data=None, stub, headers_dict,
timestamp)` returning a dict; `argus` is `Argus.get_value(params, cookies,
timestamp)`; `ladon` is `Ladon.get_value(params)`. -/
structure Backend where
  gorgon : String → List (String × String) → String → Int →
      Except String (List (String × Value))
  argus : String → String → Int → Except String Value
  ladon : String → Except String Value

/-- Model of `SecurityServiceSubprocess.generate_headers`: build the headers dict
(cookie only when non-empty), run the three signing calls in order, and
return the four-header mapping.  The `try`/`except` in the source logs and
re-raises, so a failure propagates unchanged. -/
def generate_headers (B : Backend) (params cookies stub : String)
    (timestamp : Int) : Except String (List (String × Value)) := do
  let headers_dict := if cookies ≠ "" then [("cookie", cookies)] else []
  let gorgon_result ← B.gorgon params headers_dict stub timestamp
  let argus_value ← B.argus params cookies timestamp
  let ladon_value ← B.ladon params
  pure [("X-Gorgon", (dictGet gorgon_result "X-Gorgon").getD (Value.s "")),
        ("X-Khronos",
          Value.s (pyStr ((dictGet gorgon_result "X-Khronos").getD
            (Value.i timestamp)))),
        ("X-Argus", argus_value),
        ("X-Ladon", ladon_value)]

/-- Lines 82-90 of `build_authenticated_params`: copy the base params and
inject `device_id` and (under key `iid`) `install_id` from
`sessionData.tokens` when present. -/
def injectTokens (base : List (String × Value)) (tokens : Option Tokens) :
    List (String × Value) :=
  match tokens with
  | none => base
  | some t =>
      let p1 := match t.device_id with
        | some d => dictSet base "device_id" d
        | none => base
      match t.install_id with
      | some i => dictSet p1 "iid" i
      | none => p1

/-- Model of `SecurityServiceSubprocess.build_authenticated_params`: inject device
identifiers, serialize the current params with `urlencode`, derive the
cookie string, call `generate_headers`, and merge the computed headers into
the params with `update`.  The source's `except` clause logs
`"buildAuthenticatedParams failed: ..."` to stderr and re-raises the
original exception, so the error value is propagated unchanged.  `stub` and
`timestamp` stand for the `secrets.token_hex(16)` / `int(time.time())`
values generated at the top of the call. -/
def build_authenticated_params (B : Backend) (base_params : List (String × Value))
    (session_data : SessionData) (stub : String) (timestamp : Int) :
    Except String (List (String × Value)) := do
  let params := injectTokens base_params session_data.tokens
  let params_string := urlencode params
  let cookies := deriveCookies session_data.cookies
  let headers ← generate_headers B params_string cookies stub timestamp
  pure (dictUpdate params headers)

/-- A `requestId` value as echoed into responses: JSON null, a string, or a
number. -/
inductive RVal where
  | null
  | s (s : String)
  | i (n : Int)
deriving DecidableEq

/-- A parsed request object.  `none` models an absent key (`request.get`
returns Python `None` for it). -/
structure Request where
  action : Option String := none
  requestId : Option RVal := none
  secUserId : Option String := none
  baseParams : Option (List (String × Value)) := none
  sessionData : Option SessionData := none
  params : Option String := none
  cookies : Option String := none
  stub : Option String := none
  timestamp : Option Int := none

/-- The action-specific part of a response object. -/
inductive Payload where
  | config (baseUrl userAgent : String) (endpoints : List (String × String))
  | deviceAuth (sec_user_id : String)
  | params (d : List (String × Value))
  | headers (d : List (String × Value))
  | error (msg : String)
deriving DecidableEq

/-- A response object: `success`, an optional `requestId` key (`none` means
the key is absent from the object, as in the parse-failure response), and
the payload. -/
structure Response where
  success : Bool
  requestId : Option RVal
  payload : Payload
deriving DecidableEq

/-- The `requestId` echoed by `handle_request`: the key is always present
in its responses, holding null when the request had none. -/
def echoRid (request : Request) : Option RVal :=
  some (request.requestId.getD RVal.null)

/-- The static configuration returned for `getApiConfig`. -/
def apiConfigPayload : Payload :=
  .config "https://api16-normal-c-useast1a.tiktokv.com" "okhttp/3.12.13"
    [("feed", "/aweme/v1/feed/"), ("recommended", "/aweme/v1/feed/")]

/-- Python `str()` of the action value as interpolated into the
unknown-action message (`None` when the key is absent). -/
def actionStr : Option String → String
  | some a => a
  | none => "None"

/-- Model of `SecurityServiceSubprocess.handle_request`: dispatch on the `action`
string.  `freshStub` / `now` stand for the `secrets.token_hex(16)` /
`int(time.time())` defaults evaluated during the call.  An error raised by
the assembler or the header generator propagates out (`Except.error`). -/
def handle_request (B : Backend) (freshStub : String) (now : Int)
    (request : Request) : Except String Response :=
  if request.action = some "getApiConfig" then
    .ok { success := true, requestId := echoRid request,
          payload := apiConfigPayload }
  else if request.action = some "generateDeviceAuth" then
    .ok { success := true, requestId := echoRid request,
          payload := .deviceAuth (request.secUserId.getD "") }
  else if request.action = some "buildAuthenticatedParams" then do
    let authenticated_params ← build_authenticated_params B
      (request.baseParams.getD [])
      (request.sessionData.getD { tokens := none, cookies := .absent })
      freshStub now
    pure { success := true, requestId := echoRid request,
           payload := .params authenticated_params }
  else if request.action = some "generateHeaders" then do
    let headers ← generate_headers B (request.params.getD "")
      (request.cookies.getD "") (request.stub.getD freshStub)
      (request.timestamp.getD now)
    pure { success := true, requestId := echoRid request,
           payload := .headers headers }
  else
    .ok { success := false, requestId := echoRid request,
          payload := .error ("Unknown action: " ++ actionStr request.action) }

/-- One line read by the IPC loop, after `json.loads(line.strip())`:
either a `json.JSONDecodeError` with its message, a parsed value that is
not an object (so `request.get` raises an `AttributeError`, message
`msg`), or a parsed request object. -/
inductive InputLine where
  | badJson (msg : String)
  | nonObj (msg : String)
  | ok (req : Request)

/-- One iteration of `SecurityServiceSubprocess.run`: the response object
written for one input line.  A `JSONDecodeError` yields the
`Invalid JSON:` response with no `requestId` key; any other exception
yields `{success: false, error: str(e)}`, also with no `requestId` key. -/
def processLine (B : Backend) (freshStub : String) (now : Int) :
    InputLine → Response
  | .badJson m =>
      { success := false, requestId := none,
        payload := .error ("Invalid JSON: " ++ m) }
  | .nonObj m => { success := false, requestId := none, payload := .error m }
  | .ok req =>
      match handle_request B freshStub now req with
      | .ok r => r
      | .error e => { success := false, requestId := none, payload := .error e }

/-- Model of `SecurityServiceSubprocess.run`: read lines until end-of-stream,
writing one response per line.  The input is the finite list of lines
delivered before EOF, each paired with the entropy (`token_hex`,
`time.time`) drawn during its iteration; the empty list is the immediate
EOF, on which the loop breaks cleanly. -/
def run (B : Backend) : List (InputLine × String × Int) → List Response
  | [] => []
  | (line, st, ts) :: rest => processLine B st ts line :: run B rest

/-! ### Association-list (Python dict) lemmas -/

theorem dictGet_set_self (d : List (String × Value)) (k : String) (v : Value) :
    dictGet (dictSet d k v) k = some v := by
  induction d with
  | nil => simp [dictSet, dictGet]
  | cons p rest ih =>
    obtain ⟨k2, v2⟩ := p
    by_cases h : k2 = k
    · simp [dictSet, h, dictGet]
    · simp [dictSet, h, dictGet, ih]

theorem dictGet_set_ne (d : List (String × Value)) (k k' : String) (v : Value)
    (h : k' ≠ k) : dictGet (dictSet d k v) k' = dictGet d k' := by
  induction d with
  | nil => simp [dictSet, dictGet, Ne.symm h]
  | cons p rest ih =>
    obtain ⟨k2, v2⟩ := p
    by_cases h2 : k2 = k
    · subst h2
      simp [dictSet, dictGet, Ne.symm h]
    · simp [dictSet, h2, dictGet, ih]

theorem dictGet_update_notmem (e d : List (String × Value)) (k : String)
    (h : k ∉ e.map Prod.fst) : dictGet (dictUpdate d e) k = dictGet d k := by
  induction e generalizing d with
  | nil => rfl
  | cons p rest ih =>
    simp only [List.map_cons, List.mem_cons, not_or] at h
    have step : dictUpdate d (p :: rest) = dictUpdate (dictSet d p.1 p.2) rest := rfl
    rw [step, ih _ h.2, dictGet_set_ne _ _ _ _ h.1]

theorem dictGet_update_mem (e d : List (String × Value)) (k : String) (v : Value)
    (hnd : (e.map Prod.fst).Nodup) (hmem : (k, v) ∈ e) :
    dictGet (dictUpdate d e) k = some v := by
  induction e generalizing d with
  | nil => cases hmem
  | cons p rest ih =>
    simp only [List.map_cons, List.nodup_cons] at hnd
    have step : dictUpdate d (p :: rest) = dictUpdate (dictSet d p.1 p.2) rest := rfl
    rcases List.mem_cons.1 hmem with he | hm
    · subst he
      rw [step, dictGet_update_notmem _ _ _ (by simpa using hnd.1)]
      exact dictGet_set_self d k v
    · rw [step]
      exact ih (dictSet d p.1 p.2) hnd.2 hm

/-- When the subprocess `generate_headers` succeeds, the computed mapping
has exactly the four header keys, in order. -/
theorem generate_headers_keys (B : Backend) (params cookies stub : String)
    (ts : Int) (hs : List (String × Value))
    (h : generate_headers B params cookies stub ts = .ok hs) :
    hs.map Prod.fst = ["X-Gorgon", "X-Khronos", "X-Argus", "X-Ladon"] := by
  simp only [generate_headers, bind, Except.bind] at h
  cases hg : B.gorgon params (if cookies ≠ "" then [("cookie", cookies)] else []) stub ts with
  | error e => rw [hg] at h; cases h
  | ok g =>
    rw [hg] at h
    cases ha : B.argus params cookies ts with
    | error e => rw [ha] at h; cases h
    | ok a =>
      rw [ha] at h
      cases hl : B.ladon params with
      | error e => rw [hl] at h; cases h
      | ok l =>
        rw [hl] at h
        simp only [pure, Except.pure, Except.ok.injEq] at h
        subst h
        rfl

/-! ### Concrete fixtures used by witnesses and counterexamples -/

/-- A backend whose three signing calls all succeed. -/
def B0 : Backend where
  gorgon := fun _ _ _ _ => .ok []
  argus := fun _ _ _ => .ok (Value.s "argus-sig")
  ladon := fun _ => .ok (Value.s "ladon-sig")

/-- A backend whose signing calls all raise, with message `boom`. -/
def Bfail : Backend where
  gorgon := fun _ _ _ _ => .error "boom"
  argus := fun _ _ _ => .error "boom"
  ladon := fun _ => .error "boom"

/-- Session data with no tokens and no cookies. -/
def sdEmpty : SessionData := { tokens := none, cookies := .absent }

/-- A `buildAuthenticatedParams` request with `requestId` 5. -/
def reqBuild5 : Request :=
  { action := some "buildAuthenticatedParams", requestId := some (.i 5) }

/-- A two-line input: one malformed line, then a `getApiConfig` request. -/
def insC1 : List (InputLine × String × Int) :=
  [(.badJson "bad line", "st1", 1),
   (.ok { action := some "getApiConfig", requestId := some (.i 1) }, "st2", 2)]

/-! ### Claims about the IPC loop and router -/

/-- C1: for every finite sequence of input lines fed to the IPC loop
(`run`), the loop writes exactly one response per input line, in the same
order the lines were read.  `run` is a total function on the finite list of
lines preceding end-of-stream, so no single request's failure terminates
it, and it produces `[]` (clean termination, no error) exactly when the
input ends. -/
theorem c1_run_one_response_per_line (B : Backend)
    (inputs : List (InputLine × String × Int)) :
    (run B inputs).length = inputs.length ∧
    ∀ (i : Nat) (h1 : i < inputs.length) (h2 : i < (run B inputs).length),
      (run B inputs).get ⟨i, h2⟩ =
        processLine B (inputs.get ⟨i, h1⟩).2.1 (inputs.get ⟨i, h1⟩).2.2
          (inputs.get ⟨i, h1⟩).1 := by
  induction inputs with
  | nil => exact ⟨rfl, fun i h1 h2 => absurd h1 (by simp)⟩
  | cons p rest ih =>
    obtain ⟨line, st, ts⟩ := p
    refine ⟨by simpa [run] using ih.1, ?_⟩
    intro i h1 h2
    cases i with
    | zero => rfl
    | succ n =>
      exact ih.2 n (by simpa using h1) (by simpa [run] using h2)

/-- Witness for C1 at a concrete two-line input. -/
theorem c1_run_one_response_per_line_witness :
    (run B0 insC1).length = insC1.length ∧
    (run B0 insC1).get ⟨0, by decide⟩ =
      processLine B0 (insC1.get ⟨0, by decide⟩).2.1
        (insC1.get ⟨0, by decide⟩).2.2 (insC1.get ⟨0, by decide⟩).1 :=
  ⟨(c1_run_one_response_per_line B0 insC1).1,
   (c1_run_one_response_per_line B0 insC1).2 0 (by decide) (by decide)⟩

/-- C2 as stated is false on the code: when handling a successfully parsed
request raises, the loop's `except Exception` handler builds
`{success: false, error: str(e)}` with no `requestId` key at all.  At the
concrete request `{action: buildAuthenticatedParams, requestId: 5}` with a
backend raising `boom`, the emitted response has no `requestId` field, so
it does not echo the request's `requestId`. -/
theorem c2_counterexample :
    handle_request Bfail "st" 0 reqBuild5 = .error "boom" ∧
    reqBuild5.requestId = some (RVal.i 5) ∧
    processLine Bfail "st" 0 (.ok reqBuild5) =
      { success := false, requestId := none, payload := .error "boom" } ∧
    (processLine Bfail "st" 0 (.ok reqBuild5)).requestId ≠ some (RVal.i 5) :=
  ⟨rfl, rfl, rfl, by decide⟩

/-- C2 amended: for every successfully parsed request whose handling raises
an exception, the IPC loop emits `{success: false, error: message}` — with
no `requestId` key — instead of propagating the exception. -/
theorem c2_amended_error_response_no_requestId (B : Backend) (st : String)
    (now : Int) (req : Request) (e : String)
    (h : handle_request B st now req = .error e) :
    processLine B st now (.ok req) =
      { success := false, requestId := none, payload := .error e } := by
  simp [processLine, h]

/-- Witness for the amended C2 at a concrete failing request. -/
theorem c2_amended_error_response_no_requestId_witness :
    processLine Bfail "st" 0 (.ok reqBuild5) =
      { success := false, requestId := none, payload := .error "boom" } :=
  c2_amended_error_response_no_requestId Bfail "st" 0 reqBuild5 "boom" rfl

/-- C3: a line that fails to parse as JSON yields a response with
`success = false`, an error describing the parse failure
(`Invalid JSON: ...`), and no `requestId` key, after which the loop
continues with the remaining lines; concretely, one bad line followed by a
good `getApiConfig` line yields exactly two responses, the second
successful. -/
theorem c3_bad_line_then_continue :
    (∀ (B : Backend) (st : String) (ts : Int) (m : String)
        (rest : List (InputLine × String × Int)),
      run B ((InputLine.badJson m, st, ts) :: rest) =
        { success := false, requestId := none,
          payload := .error ("Invalid JSON: " ++ m) } :: run B rest) ∧
    run B0 insC1 =
      [{ success := false, requestId := none,
         payload := .error "Invalid JSON: bad line" },
       { success := true, requestId := some (RVal.i 1),
         payload := apiConfigPayload }] :=
  ⟨fun _ _ _ _ _ => rfl, rfl⟩

/-- C4 as stated is false on the code: `build_authenticated_params` logs
`"buildAuthenticatedParams failed: ..."` to stderr but re-raises the
original exception, so the error reaching the caller carries the bare
cause, not the prefixed message.  Concretely, with a backend raising
`boom`, the propagated error is `boom`. -/
theorem c4_counterexample :
    build_authenticated_params Bfail [] sdEmpty "st" 0 = .error "boom" ∧
    "boom" ≠ "buildAuthenticatedParams failed: boom" :=
  ⟨rfl, by decide⟩

/-- C4 amended: whenever the signing backend fails during
`build_authenticated_params`, the failure propagates to the caller as the
original error, message `<cause>` (the `buildAuthenticatedParams failed:`
prefix appears only in the stderr diagnostic log); the assembler does not
substitute placeholder values. -/
theorem c4_amended_backend_failure_propagates (B : Backend)
    (base : List (String × Value)) (sd : SessionData) (st : String) (ts : Int)
    (e : String)
    (h : generate_headers B (urlencode (injectTokens base sd.tokens))
      (deriveCookies sd.cookies) st ts = .error e) :
    build_authenticated_params B base sd st ts = .error e := by
  simp only [build_authenticated_params, bind, Except.bind, h]

/-- Witness for the amended C4 at a concrete failing backend. -/
theorem c4_amended_backend_failure_propagates_witness :
    build_authenticated_params Bfail [] sdEmpty "st" 0 = .error "boom" :=
  c4_amended_backend_failure_propagates Bfail [] sdEmpty "st" 0 "boom" rfl

/-- C5: the derived cookie string is the `name=value` pairs joined by
`"; "` in sequence order when `sessionData.cookies` is a list of pairs
(e.g. `[{name: a, value: 1}, {name: b, value: 2}]` gives `a=1; b=2`
exactly); the string itself verbatim when it is a string; and the empty
string when the field is absent. -/
theorem c5_cookie_derivation :
    (∀ cs : List (String × String),
      deriveCookies (.pairs cs) =
        String.intercalate "; " (cs.map (fun p => p.1 ++ "=" ++ p.2))) ∧
    (∀ s : String, deriveCookies (.raw s) = s) ∧
    deriveCookies .absent = "" ∧
    deriveCookies (.pairs [("a", "1"), ("b", "2")]) = "a=1; b=2" := by
  refine ⟨?_, ?_, rfl, by decide⟩
  · intro cs
    cases cs with
    | nil => rfl
    | cons c rest => simp [deriveCookies, cookieTruthy]
  · intro s
    by_cases h : s = ""
    · subst h; rfl
    · have hne : s.isEmpty = false := by
        cases hse : s.isEmpty with
        | false => rfl
        | true => exact absurd ((String.isEmpty_iff s).1 hse) h
      simp [deriveCookies, cookieTruthy, hne]

/-- C6: `build_authenticated_params` injects `sessionData.tokens.device_id`
under key `device_id` and `sessionData.tokens.install_id` under key `iid`
when present (independently optional), and the URL-encoded query string it
passes to the signing backend is serialized from the post-injection
parameter set — which differs from the serialization of the pre-injection
base params (concrete instance in the last conjunct). -/
theorem c6_device_injection_and_signing_input (B : Backend)
    (base : List (String × Value)) (sd : SessionData) (st : String) (ts : Int) :
    (∀ t d, sd.tokens = some t → t.device_id = some d →
      dictGet (injectTokens base sd.tokens) "device_id" = some d) ∧
    (∀ t i, sd.tokens = some t → t.install_id = some i →
      dictGet (injectTokens base sd.tokens) "iid" = some i) ∧
    build_authenticated_params B base sd st ts =
      (generate_headers B (urlencode (injectTokens base sd.tokens))
        (deriveCookies sd.cookies) st ts).map
        (fun hs => dictUpdate (injectTokens base sd.tokens) hs) ∧
    urlencode (injectTokens []
        (some { device_id := some (Value.s "7"), install_id := none })) ≠
      urlencode [] := by
  refine ⟨?_, ?_, ?_, by decide⟩
  · intro t d ht hd
    rw [ht]
    simp only [injectTokens, hd]
    cases hi : t.install_id with
    | none => exact dictGet_set_self base "device_id" d
    | some i =>
      rw [dictGet_set_ne _ _ _ _ (by decide)]
      exact dictGet_set_self base "device_id" d
  · intro t i ht hi
    rw [ht]
    simp only [injectTokens, hi]
    cases hd : t.device_id <;> exact dictGet_set_self _ "iid" i
  · cases hg : generate_headers B (urlencode (injectTokens base sd.tokens))
        (deriveCookies sd.cookies) st ts with
    | error e =>
      simp only [build_authenticated_params, bind, Except.bind, hg, Except.map]
    | ok hs =>
      simp only [build_authenticated_params, bind, Except.bind, hg, Except.map,
        pure, Except.pure]

/-- Session data fixture with both device tokens present. -/
def sdTok : SessionData :=
  { tokens := some { device_id := some (.s "D7"), install_id := some (.s "I9") },
    cookies := .absent }

/-- Witness for C6 at concrete session data carrying both tokens. -/
theorem c6_device_injection_and_signing_input_witness :
    dictGet (injectTokens [("k", Value.s "v")] sdTok.tokens) "device_id" =
      some (Value.s "D7") ∧
    dictGet (injectTokens [("k", Value.s "v")] sdTok.tokens) "iid" =
      some (Value.s "I9") :=
  ⟨(c6_device_injection_and_signing_input B0 [("k", Value.s "v")] sdTok "st" 0).1
      _ _ rfl rfl,
   (c6_device_injection_and_signing_input B0 [("k", Value.s "v")] sdTok "st" 0).2.1
      _ _ rfl rfl⟩

/-- C7: if the base params contain a key equal to a computed header name,
the final mapping returned by `build_authenticated_params` holds the
header's value for that key, not the original base value — the
`params.update(headers)` merge lets headers overwrite same-named base
params. -/
theorem c7_headers_overwrite_base_params (B : Backend)
    (base : List (String × Value)) (sd : SessionData) (st : String) (ts : Int)
    (hs r : List (String × Value)) (k : String) (v : Value)
    (hok : generate_headers B (urlencode (injectTokens base sd.tokens))
      (deriveCookies sd.cookies) st ts = .ok hs)
    (hmem : (k, v) ∈ hs)
    (_hbase : k ∈ base.map Prod.fst)
    (hr : build_authenticated_params B base sd st ts = .ok r) :
    dictGet r k = some v := by
  have hkeys := generate_headers_keys B _ _ st ts hs hok
  have hnd : (hs.map Prod.fst).Nodup := by rw [hkeys]; decide
  simp only [build_authenticated_params, bind, Except.bind, hok, pure,
    Except.pure, Except.ok.injEq] at hr
  subst hr
  exact dictGet_update_mem hs _ k v hnd hmem

/-- The header mapping `generate_headers B0` produces for the witness
input. -/
def hsC7 : List (String × Value) :=
  [("X-Gorgon", Value.s ""), ("X-Khronos", Value.s "0"),
   ("X-Argus", Value.s "argus-sig"), ("X-Ladon", Value.s "ladon-sig")]

/-- The merged result `build_authenticated_params` returns for the witness
input: the `X-Argus` base entry has been overwritten by the header. -/
def rC7 : List (String × Value) :=
  [("X-Argus", Value.s "argus-sig"), ("X-Gorgon", Value.s ""),
   ("X-Khronos", Value.s "0"), ("X-Ladon", Value.s "ladon-sig")]

/-- Witness for C7: base params already bind `X-Argus`; the final mapping
holds the computed header value. -/
theorem c7_headers_overwrite_base_params_witness :
    dictGet rC7 "X-Argus" = some (Value.s "argus-sig") :=
  c7_headers_overwrite_base_params B0 [("X-Argus", Value.s "orig")] sdEmpty
    "st" 0 hsC7 rC7 "X-Argus" (Value.s "argus-sig") rfl (by decide) (by decide)
    rfl

/-- C8: a parsed request whose action is not one of the four known action
strings is answered with `{success: false, requestId, error:
"Unknown action: <name>"}` echoing the request's `requestId`; concretely,
action `bogus` with `requestId` 7 yields exactly
`{success: false, requestId: 7, error: "Unknown action: bogus"}`. -/
theorem c8_unknown_action :
    (∀ (B : Backend) (st : String) (now : Int) (req : Request) (a : String),
      req.action = some a →
      a ∉ ["getApiConfig", "generateDeviceAuth", "buildAuthenticatedParams",
           "generateHeaders"] →
      handle_request B st now req =
        .ok { success := false, requestId := echoRid req,
              payload := .error ("Unknown action: " ++ a) }) ∧
    handle_request B0 "st" 0
        { action := some "bogus", requestId := some (.i 7) } =
      .ok { success := false, requestId := some (RVal.i 7),
            payload := .error "Unknown action: bogus" } := by
  refine ⟨?_, rfl⟩
  intro B st now req a ha hmem
  simp only [List.mem_cons, List.not_mem_nil, or_false, not_or] at hmem
  obtain ⟨h1, h2, h3, h4⟩ := hmem
  simp [handle_request, ha, h1, h2, h3, h4, actionStr]

/-- Witness for C8 at the concrete `bogus` action. -/
theorem c8_unknown_action_witness :
    handle_request B0 "st" 0
        { action := some "bogus", requestId := some (.i 7) } =
      .ok { success := false,
            requestId := echoRid { action := some "bogus",
                                   requestId := some (.i 7) },
            payload := .error "Unknown action: bogus" } :=
  c8_unknown_action.1 B0 "st" 0
    { action := some "bogus", requestId := some (.i 7) } "bogus" rfl
    (by decide)

/-! ### The REST-facing wrapper (`main.py`, `generate_headers` endpoint) -/

/-- Return value of `XGorgon.calculate`: the source checks
`isinstance(gorgon_result, dict)`; anything else is passed through
`str(...)`, which the `nonDict` constructor carries directly. -/
inductive GorgonRet where
  | dict (d : List (String × Value))
  | nonDict (strRepr : String)

/-- The three signing primitives as used by the REST wrapper:
`XGorgon.calculate(params, headers)`, `Argus.get_sign(params, stub,
timestamp)` and `Ladon.encrypt(timestamp)`, each possibly raising. -/
structure RestBackend where
  gorgonCalc : String → List (String × String) → Except String GorgonRet
  argusSign : String → String → Int → Except String String
  ladonEncrypt : Int → Except String String

/-- The `HeaderRequest` pydantic model (fields used by the endpoint). -/
structure HeaderRequest where
  params : String
  cookies : String
  stub : Option String := none
  timestamp : Option Int := none

/-- Timestamp default `request.timestamp or int(time.time())`: Python `or` treats both
`None` and `0` as falsy, replacing them with the current time. -/
def effTimestamp (req : HeaderRequest) (now : Int) : Int :=
  match req.timestamp with
  | some t => if t = 0 then now else t
  | none => now

/-- The headers dict built for the XGorgon calculation: `cookie` when the
cookies string is truthy, `x-ss-stub` when the stub is present and
truthy. -/
def restHeadersDict (req : HeaderRequest) : List (String × String) :=
  (if req.cookies ≠ "" then [("cookie", req.cookies)] else []) ++
  (match req.stub with
   | some st => if st ≠ "" then [("x-ss-stub", st)] else []
   | none => [])

/-- Stub default `request.stub or ""`. -/
def stubOrEmpty (req : HeaderRequest) : String := req.stub.getD ""

/-- The response body of a successful `/generate-headers` call. -/
structure RestHeaderResponse where
  success : Bool
  headers : List (String × Value)
  timestamp : Int
deriving DecidableEq

/-- The documented X-Gorgon fallback sentinel. -/
def gorgonSentinel : String := "0404000000000000000000000000000000000000"

/-- The `/generate-headers` endpoint of `main.py`: each of the three
signing computations sits in its own `try`/`except`; a failure (or a falsy
result, for X-Argus and X-Ladon) is replaced by the documented sentinel
placeholder and the remaining computations still run.  The response always
carries all four header keys. -/
def rest_generate_headers (B : RestBackend) (req : HeaderRequest)
    (now : Int) : RestHeaderResponse :=
  let timestamp := effTimestamp req now
  let gorgonPair :=
    match B.gorgonCalc req.params (restHeadersDict req) with
    | .ok (.dict d) =>
        ((dictGet d "X-Gorgon").getD (Value.s gorgonSentinel),
         (dictGet d "X-Khronos").getD (Value.s (toString timestamp)))
    | .ok (.nonDict s) => (Value.s s, Value.s (toString timestamp))
    | .error _ => (Value.s gorgonSentinel, Value.s (toString timestamp))
  let x_argus :=
    match B.argusSign req.params (stubOrEmpty req) timestamp with
    | .ok a => if a = "" then "placeholder_argus_value" else a
    | .error _ => "placeholder_argus_value"
  let x_ladon :=
    match B.ladonEncrypt timestamp with
    | .ok l => if l = "" then "placeholder_ladon_value" else l
    | .error _ => "placeholder_ladon_value"
  { success := true,
    headers := [("X-Gorgon", gorgonPair.1), ("X-Khronos", gorgonPair.2),
                ("X-Argus", Value.s x_argus), ("X-Ladon", Value.s x_ladon)],
    timestamp := timestamp }

/-- C9: in the REST wrapper's `generate_headers` endpoint the three signing
computations are isolated: for every input the endpoint returns all four
header keys; a failing computation contributes its documented sentinel
placeholder instead of failing the request, and a failure of one does not
prevent the others' computed values from being returned. -/
theorem c9_rest_wrapper_isolated_failures (B : RestBackend)
    (req : HeaderRequest) (now : Int) :
    ((rest_generate_headers B req now).headers.map Prod.fst =
      ["X-Gorgon", "X-Khronos", "X-Argus", "X-Ladon"]) ∧
    (∀ e, B.gorgonCalc req.params (restHeadersDict req) = .error e →
      dictGet (rest_generate_headers B req now).headers "X-Gorgon" =
        some (Value.s gorgonSentinel)) ∧
    (∀ e, B.argusSign req.params (stubOrEmpty req) (effTimestamp req now) =
        .error e →
      dictGet (rest_generate_headers B req now).headers "X-Argus" =
        some (Value.s "placeholder_argus_value")) ∧
    (∀ e, B.ladonEncrypt (effTimestamp req now) = .error e →
      dictGet (rest_generate_headers B req now).headers "X-Ladon" =
        some (Value.s "placeholder_ladon_value")) ∧
    (∀ a, B.argusSign req.params (stubOrEmpty req) (effTimestamp req now) =
        .ok a → a ≠ "" →
      dictGet (rest_generate_headers B req now).headers "X-Argus" =
        some (Value.s a)) ∧
    (∀ l, B.ladonEncrypt (effTimestamp req now) = .ok l → l ≠ "" →
      dictGet (rest_generate_headers B req now).headers "X-Ladon" =
        some (Value.s l)) := by
  refine ⟨by simp [rest_generate_headers], ?_, ?_, ?_, ?_, ?_⟩
  · intro e h
    simp [rest_generate_headers, h, dictGet]
  · intro e h
    simp [rest_generate_headers, h, dictGet]
  · intro e h
    simp [rest_generate_headers, h, dictGet]
  · intro a h ha
    simp [rest_generate_headers, h, ha, dictGet]
  · intro l h hl
    simp [rest_generate_headers, h, hl, dictGet]

/-- A REST backend whose three signing calls all raise. -/
def BfailRest : RestBackend where
  gorgonCalc := fun _ _ => .error "gorgon down"
  argusSign := fun _ _ _ => .error "argus down"
  ladonEncrypt := fun _ => .error "ladon down"

/-- A concrete header request. -/
def reqRest : HeaderRequest := { params := "p=1", cookies := "" }

/-- Witness for C9: with all three backends failing, the endpoint still
returns all four keys, with the sentinel placeholders. -/
theorem c9_rest_wrapper_isolated_failures_witness :
    ((rest_generate_headers BfailRest reqRest 5).headers.map Prod.fst =
      ["X-Gorgon", "X-Khronos", "X-Argus", "X-Ladon"]) ∧
    dictGet (rest_generate_headers BfailRest reqRest 5).headers "X-Argus" =
      some (Value.s "placeholder_argus_value") ∧
    dictGet (rest_generate_headers BfailRest reqRest 5).headers "X-Gorgon" =
      some (Value.s gorgonSentinel) ∧
    dictGet (rest_generate_headers BfailRest reqRest 5).headers "X-Ladon" =
      some (Value.s "placeholder_ladon_value") :=
  ⟨(c9_rest_wrapper_isolated_failures BfailRest reqRest 5).1,
   (c9_rest_wrapper_isolated_failures BfailRest reqRest 5).2.2.1
     "argus down" rfl,
   (c9_rest_wrapper_isolated_failures BfailRest reqRest 5).2.1
     "gorgon down" rfl,
   (c9_rest_wrapper_isolated_failures BfailRest reqRest 5).2.2.2.1
     "ladon down" rfl⟩

end Tokscope

/-! ## The compose-hash utility (`enclave-tools/get_compose_hash.py`) -/

namespace ComposeHash

/-- JSON-like Python value. -/
inductive J where
  | null
  | jbool (b : Bool)
  | num (n : Int)
  | fnum (isNaN : Bool) (isInf : Bool) (lit : String)
  | jstr (s : String)
  | arr (elems : List J)
  | obj (entries : List (String × J))

mutual
def mapsBEq : J → J → Bool
  | .null, .null => true
  | .jbool a, .jbool b => a == b
  | .num a, .num b => a == b
  | .fnum a b c, .fnum a2 b2 c2 => a == a2 && b == b2 && c == c2
  | .jstr a, .jstr b => a == b
  | .arr l1, .arr l2 => arrEq l1 l2
  | .obj l1, .obj l2 => objSub l1 l2 && objSub l2 l1
  | _, _ => false
termination_by a b => sizeOf a + sizeOf b
decreasing_by all_goals (simp_wf <;> omega)

def arrEq : List J → List J → Bool
  | [], [] => true
  | x :: xs, y :: ys => mapsBEq x y && arrEq xs ys
  | _, _ => false
termination_by l1 l2 => sizeOf l1 + sizeOf l2
decreasing_by all_goals (simp_wf <;> omega)

def objSub : List (String × J) → List (String × J) → Bool
  | [], _ => true
  | (k, v) :: rest, l2 => memEq k v l2 && objSub rest l2
termination_by l1 l2 => sizeOf l1 + sizeOf l2
decreasing_by all_goals (simp_wf <;> omega)

def memEq : String → J → List (String × J) → Bool
  | _, _, [] => false
  | k, v, (k2, v2) :: rest => (k == k2 && mapsBEq v v2) || memEq k v rest
termination_by _ v l => sizeOf v + sizeOf l
decreasing_by all_goals (simp_wf <;> omega)
end

def keyAbsent (k : String) : List String → Bool
  | [] => true
  | k2 :: rest => if k = k2 then false else keyAbsent k rest

def nodupKeys : List String → Bool
  | [] => true
  | k :: rest => keyAbsent k rest && nodupKeys rest

mutual
def wfKeys : J → Bool
  | .arr l => wfArr l
  | .obj l => nodupKeys (l.map Prod.fst) && wfEntries l
  | _ => true
termination_by j => sizeOf j
decreasing_by all_goals (simp_wf <;> omega)

def wfArr : List J → Bool
  | [] => true
  | x :: xs => wfKeys x && wfArr xs
termination_by l => sizeOf l
decreasing_by all_goals (simp_wf <;> omega)

def wfEntries : List (String × J) → Bool
  | [] => true
  | (k, v) :: rest => wfKeys v && wfEntries rest
termination_by l => sizeOf l
decreasing_by all_goals (simp_wf <;> omega)
end

def keyLE (a b : String × J) : Prop := a.1 ≤ b.1

instance : DecidableRel keyLE := fun a b => inferInstanceAs (Decidable (a.1 ≤ b.1))
instance : IsTotal (String × J) keyLE := ⟨fun a b => le_total a.1 b.1⟩
instance : IsTrans (String × J) keyLE := ⟨fun a b c h1 h2 => le_trans h1 h2⟩

def sort_object : J → J
  | .null => .null
  | .jbool b => .jbool b
  | .num n => .num n
  | .fnum a b c => .fnum a b c
  | .jstr s => .jstr s
  | .arr l => .arr (l.attach.map (fun x => sort_object x.1))
  | .obj l => .obj (((l.insertionSort keyLE).attach).map
      (fun p => (p.1.1, sort_object p.1.2)))
  decreasing_by
    · have h1 : sizeOf x.1 < sizeOf l := List.sizeOf_lt_of_mem x.2
      simp only [J.arr.sizeOf_spec]
      omega
    · have hm : p.1 ∈ l := (List.perm_insertionSort keyLE l).subset p.2
      have h1 : sizeOf p.1 < sizeOf l := List.sizeOf_lt_of_mem hm
      have h2 : sizeOf p.1.2 < sizeOf p.1 := by
        obtain ⟨a, b⟩ := p.1
        simp
      simp only [J.obj.sizeOf_spec]
      omega

theorem sort_object_arr (l : List J) :
    sort_object (.arr l) = .arr (l.map sort_object) := by
  rw [sort_object]
  congr 1
  rw [List.map_attach]
  simp

theorem sort_object_obj (l : List (String × J)) :
    sort_object (.obj l) = .obj ((l.insertionSort keyLE).map
      (fun p => (p.1, sort_object p.2))) := by
  rw [sort_object]
  congr 1
  rw [List.map_attach]
  simp

-- equation-lemma behavior checks
example (b : Bool) : mapsBEq .null (.jbool b) = false := by simp [mapsBEq.eq_def]
example (l1 l2 : List J) : mapsBEq (.arr l1) (.arr l2) = arrEq l1 l2 := by
  simp [mapsBEq]
example : wfKeys (.obj [("b", .num 2), ("a", .num 1)]) = true := by
  simp [wfKeys, wfEntries, nodupKeys, keyAbsent]
example : mapsBEq (.obj [("b", .num 2), ("a", .num 1)])
    (.obj [("a", .num 1), ("b", .num 2)]) = true := by
  simp [mapsBEq, objSub, memEq]


/-- Lowercase hex digit. -/
def hexLower (n : Nat) : Char :=
  if n < 10 then Char.ofNat (48 + n) else Char.ofNat (87 + n)

/-- Model of `json.dumps` escaping of one character (`ensure_ascii=False`): the two
quoting characters and the named control escapes, `\u00XX` for the other
control characters, everything else verbatim. -/
def escChar (c : Char) : String :=
  if c = '"' then "\\\""
  else if c = '\\' then "\\\\"
  else if c = '\n' then "\\n"
  else if c = '\t' then "\\t"
  else if c = '\r' then "\\r"
  else if c = '\x08' then "\\b"
  else if c = '\x0c' then "\\f"
  else if c.toNat < 0x20 then
    "\\u00" ++ String.mk [hexLower (c.toNat / 16), hexLower (c.toNat % 16)]
  else String.singleton c

/-- A JSON string literal as `json.dumps` renders it. -/
def jstrLit (s : String) : String :=
  "\"" ++ String.join (s.toList.map escChar) ++ "\""

mutual
/-- Model of `json.dumps(obj, separators=(",", ":"), ensure_ascii=False)`. -/
def dumps : J → String
  | .null => "null"
  | .jbool b => if b then "true" else "false"
  | .num n => toString n
  | .fnum _ _ lit => lit
  | .jstr s => jstrLit s
  | .arr l => "[" ++ dumpsArr l ++ "]"
  | .obj l => "\x7b" ++ dumpsObj l ++ "\x7d"
termination_by j => sizeOf j
decreasing_by all_goals (simp_wf <;> omega)

def dumpsArr : List J → String
  | [] => ""
  | [x] => dumps x
  | x :: y :: rest => dumps x ++ "," ++ dumpsArr (y :: rest)
termination_by l => sizeOf l
decreasing_by all_goals (simp_wf <;> omega)

def dumpsObj : List (String × J) → String
  | [] => ""
  | [(k, v)] => jstrLit k ++ ":" ++ dumps v
  | (k, v) :: p :: rest => jstrLit k ++ ":" ++ dumps v ++ "," ++ dumpsObj (p :: rest)
termination_by l => sizeOf l
decreasing_by all_goals (simp_wf <;> omega)
end

/-- Model of `convert_special_values`: NaN and the two infinities become `null`;
every other value is returned unchanged. -/
def convert_special_values : J → J
  | .fnum isNaN isInf lit => if isNaN || isInf then .null else .fnum isNaN isInf lit
  | v => v

mutual
/-- Model of `process_data`: recurse through dicts and lists, applying
`convert_special_values` to everything else. -/
def process_data : J → J
  | .obj l => .obj (processEntries l)
  | .arr l => .arr (processArr l)
  | v => convert_special_values v
termination_by j => sizeOf j
decreasing_by all_goals (simp_wf <;> omega)

def processArr : List J → List J
  | [] => []
  | x :: xs => process_data x :: processArr xs
termination_by l => sizeOf l
decreasing_by all_goals (simp_wf <;> omega)

def processEntries : List (String × J) → List (String × J)
  | [] => []
  | (k, v) :: rest => (k, process_data v) :: processEntries rest
termination_by l => sizeOf l
decreasing_by all_goals (simp_wf <;> omega)
end

/-- Model of `to_deterministic_json`: sort all dict keys, convert special float
values, and serialize with compact separators. -/
def to_deterministic_json (data : J) : String :=
  dumps (process_data (sort_object data))

/-- Model of `get_compose_hash`: the SHA-256 hex digest of the deterministic JSON.
`hashlib.sha256(...).hexdigest()` is an external library primitive, passed
in as `sha256hex`. -/
def get_compose_hash (sha256hex : String → String) (app_compose_data : J) : String :=
  sha256hex (to_deterministic_json app_compose_data)

/-! ### Elimination lemmas for the map-equality test -/

theorem memEq_elim (k : String) (v : J) (l2 : List (String × J))
    (h : memEq k v l2 = true) : ∃ v2, (k, v2) ∈ l2 ∧ mapsBEq v v2 = true := by
  induction l2 with
  | nil => simp [memEq] at h
  | cons p rest ih =>
    obtain ⟨k2, v2⟩ := p
    simp only [memEq, Bool.or_eq_true, Bool.and_eq_true, beq_iff_eq] at h
    rcases h with ⟨hk, hb⟩ | hr
    · exact ⟨v2, by simp [hk], hb⟩
    · obtain ⟨v3, hm, hb⟩ := ih hr
      exact ⟨v3, List.mem_cons_of_mem _ hm, hb⟩

theorem objSub_elim (l1 l2 : List (String × J)) (h : objSub l1 l2 = true) :
    ∀ k v, (k, v) ∈ l1 → ∃ v2, (k, v2) ∈ l2 ∧ mapsBEq v v2 = true := by
  induction l1 with
  | nil => intro k v hm; cases hm
  | cons p rest ih =>
    obtain ⟨k1, v1⟩ := p
    simp only [objSub, Bool.and_eq_true] at h
    intro k v hm
    rcases List.mem_cons.1 hm with he | hm2
    · cases he
      exact memEq_elim _ _ _ h.1
    · exact ih h.2 k v hm2

theorem arrEq_elim (l1 l2 : List J) (h : arrEq l1 l2 = true) :
    l1.length = l2.length ∧
    ∀ p, p ∈ l1.zip l2 → mapsBEq p.1 p.2 = true := by
  induction l1 generalizing l2 with
  | nil =>
    cases l2 with
    | nil => exact ⟨rfl, fun p hp => by cases hp⟩
    | cons y ys => simp [arrEq] at h
  | cons x xs ih =>
    cases l2 with
    | nil => simp [arrEq] at h
    | cons y ys =>
      simp only [arrEq, Bool.and_eq_true] at h
      obtain ⟨hlen, hzip⟩ := ih ys h.2
      refine ⟨by simpa using hlen, ?_⟩
      intro p hp
      rcases List.mem_cons.1 hp with he | hm
      · cases he; exact h.1
      · exact hzip p hm

theorem keyAbsent_iff (k : String) (l : List String) :
    keyAbsent k l = true ↔ k ∉ l := by
  induction l with
  | nil => simp [keyAbsent]
  | cons k2 rest ih =>
    by_cases h : k = k2
    · subst h; simp [keyAbsent]
    · simp [keyAbsent, h, ih]

theorem nodupKeys_iff (l : List String) : nodupKeys l = true ↔ l.Nodup := by
  induction l with
  | nil => simp [nodupKeys]
  | cons k rest ih =>
    simp [nodupKeys, keyAbsent_iff, ih, List.nodup_cons]

theorem wfKeys_obj_elim (l : List (String × J)) (h : wfKeys (.obj l) = true) :
    (l.map Prod.fst).Nodup ∧ ∀ p ∈ l, wfKeys p.2 = true := by
  simp only [wfKeys, Bool.and_eq_true, nodupKeys_iff] at h
  refine ⟨h.1, ?_⟩
  have h2 := h.2
  clear h
  induction l with
  | nil => intro p hp; cases hp
  | cons q rest ih =>
    obtain ⟨k, v⟩ := q
    simp only [wfEntries, Bool.and_eq_true] at h2
    intro p hp
    rcases List.mem_cons.1 hp with he | hm
    · cases he; exact h2.1
    · exact ih h2.2 p hm

theorem wfKeys_arr_elim (l : List J) (h : wfKeys (.arr l) = true) :
    ∀ x ∈ l, wfKeys x = true := by
  simp only [wfKeys] at h
  induction l with
  | nil => intro x hx; cases hx
  | cons y rest ih =>
    simp only [wfArr, Bool.and_eq_true] at h
    intro x hx
    rcases List.mem_cons.1 hx with he | hm
    · cases he; exact h.1
    · exact ih h.2 x hm


/-- Two lists of entries that are permutations of each other, both sorted
by key, with duplicate-free keys, are equal. -/
theorem sorted_nodup_keys_perm_eq : ∀ (l1 l2 : List (String × J)),
    l1.Perm l2 → l1.Sorted keyLE → l2.Sorted keyLE →
    (l1.map Prod.fst).Nodup → l1 = l2 := by
  intro l1
  induction l1 with
  | nil =>
    intro l2 hp _ _ _
    exact (hp.symm.eq_nil).symm
  | cons a t1 ih =>
    intro l2 hp hs1 hs2 hnd
    cases l2 with
    | nil => exact absurd hp.eq_nil (by simp)
    | cons b t2 =>
      have hab : a = b := by
        have ha2 : a ∈ b :: t2 := hp.subset (List.mem_cons_self a t1)
        rcases List.mem_cons.1 ha2 with he | hat2
        · exact he
        · have hb1 : b ∈ a :: t1 := hp.symm.subset (List.mem_cons_self b t2)
          rcases List.mem_cons.1 hb1 with he2 | hbt1
          · exact he2.symm
          · have h1 : keyLE a b := List.rel_of_sorted_cons hs1 b hbt1
            have h2 : keyLE b a := List.rel_of_sorted_cons hs2 a hat2
            have hk : a.1 = b.1 := le_antisymm h1 h2
            simp only [List.map_cons, List.nodup_cons] at hnd
            exact absurd (hk ▸ List.mem_map_of_mem Prod.fst hbt1) hnd.1
      subst hab
      have ht : t1.Perm t2 := hp.cons_inv
      have : t1 = t2 := by
        apply ih t2 ht hs1.of_cons hs2.of_cons
        simp only [List.map_cons, List.nodup_cons] at hnd
        exact hnd.2
      rw [this]

/-- Given the inductive hypothesis on values, `arrEq` lists have equal
canonicalized element lists. -/
theorem arr_map_congr (n : Nat)
    (ih : ∀ d1 d2 : J, sizeOf d1 < n → sizeOf d2 < n → wfKeys d1 = true →
      wfKeys d2 = true → mapsBEq d1 d2 = true →
      sort_object d1 = sort_object d2) :
    ∀ l1 l2 : List J, sizeOf l1 < n → sizeOf l2 < n →
      (∀ x ∈ l1, wfKeys x = true) → (∀ x ∈ l2, wfKeys x = true) →
      arrEq l1 l2 = true → l1.map sort_object = l2.map sort_object := by
  intro l1
  induction l1 with
  | nil =>
    intro l2 _ _ _ _ he
    cases l2 with
    | nil => rfl
    | cons y ys => simp [arrEq] at he
  | cons x xs ihl =>
    intro l2 hs hs2 w1 w2 he
    cases l2 with
    | nil => simp [arrEq] at he
    | cons y ys =>
      simp only [arrEq, Bool.and_eq_true] at he
      have hx : sizeOf x < n := by
        have := List.sizeOf_lt_of_mem (List.mem_cons_self x xs)
        omega
      have hy : sizeOf y < n := by
        have := List.sizeOf_lt_of_mem (List.mem_cons_self y ys)
        omega
      have hxs : sizeOf xs < n := by
        simp only [List.cons.sizeOf_spec] at hs
        omega
      have hys : sizeOf ys < n := by
        simp only [List.cons.sizeOf_spec] at hs2
        omega
      simp only [List.map_cons]
      rw [ih x y hx hy (w1 x (by simp)) (w2 y (by simp)) he.1,
        ihl ys hxs hys (fun z hz => w1 z (List.mem_cons_of_mem x hz))
          (fun z hz => w2 z (List.mem_cons_of_mem y hz)) he.2]

/-- Given the inductive hypothesis on values, mutually `objSub` entry lists
with duplicate-free keys have permutation-equivalent canonicalized entry
lists. -/
theorem obj_map_perm (n : Nat)
    (ih : ∀ d1 d2 : J, sizeOf d1 < n → sizeOf d2 < n → wfKeys d1 = true →
      wfKeys d2 = true → mapsBEq d1 d2 = true →
      sort_object d1 = sort_object d2)
    (l1 l2 : List (String × J)) (hs1 : sizeOf l1 < n) (hs2 : sizeOf l2 < n)
    (hnd1 : (l1.map Prod.fst).Nodup) (hw1 : ∀ p ∈ l1, wfKeys p.2 = true)
    (hnd2 : (l2.map Prod.fst).Nodup) (hw2 : ∀ p ∈ l2, wfKeys p.2 = true)
    (h12 : objSub l1 l2 = true) (h21 : objSub l2 l1 = true) :
    (l1.map (fun p => (p.1, sort_object p.2))).Perm
      (l2.map (fun p => (p.1, sort_object p.2))) := by
  have key1 : (l1.map (fun p => (p.1, sort_object p.2))).map Prod.fst =
      l1.map Prod.fst := by
    simp [List.map_map, Function.comp]
  have key2 : (l2.map (fun p => (p.1, sort_object p.2))).map Prod.fst =
      l2.map Prod.fst := by
    simp [List.map_map, Function.comp]
  have nd1 : (l1.map (fun p => (p.1, sort_object p.2))).Nodup :=
    List.Nodup.of_map Prod.fst (key1 ▸ hnd1)
  have nd2 : (l2.map (fun p => (p.1, sort_object p.2))).Nodup :=
    List.Nodup.of_map Prod.fst (key2 ▸ hnd2)
  have hsize : ∀ (l : List (String × J)) (p : String × J), sizeOf l < n →
      p ∈ l → sizeOf p.2 < n := by
    intro l p hl hp
    have h1 : sizeOf p < sizeOf l := List.sizeOf_lt_of_mem hp
    have h2 : sizeOf p.2 < sizeOf p := by
      obtain ⟨a, b⟩ := p
      simp
    omega
  have hdir : ∀ (u v : List (String × J)), sizeOf u < n → sizeOf v < n →
      (∀ p ∈ u, wfKeys p.2 = true) → (∀ p ∈ v, wfKeys p.2 = true) →
      objSub u v = true →
      ∀ x ∈ u.map (fun p => (p.1, sort_object p.2)),
        x ∈ v.map (fun p => (p.1, sort_object p.2)) := by
    intro u v hu hv hwu hwv hsub x hx
    obtain ⟨p, hpu, hpx⟩ := List.mem_map.1 hx
    obtain ⟨k, w⟩ := p
    obtain ⟨w2, hw2v, hbeq⟩ := objSub_elim u v hsub k w hpu
    have heq : sort_object w = sort_object w2 :=
      ih w w2 (hsize u (k, w) hu hpu) (hsize v (k, w2) hv hw2v)
        (hwu (k, w) hpu) (hwv (k, w2) hw2v) hbeq
    have hx2 : x = (fun p => (p.1, sort_object p.2)) (k, w2) := by
      rw [← hpx]
      simp [heq]
    rw [hx2]
    exact List.mem_map_of_mem _ hw2v
  refine (List.perm_ext_iff_of_nodup nd1 nd2).2 (fun x => ⟨?_, ?_⟩)
  · exact hdir l1 l2 hs1 hs2 hw1 hw2 h12 x
  · exact hdir l2 l1 hs2 hs1 hw2 hw1 h21 x

/-- Canonicalization `sort_object` is invariant across map-equal well-keyed values (fuel
formulation). -/
theorem sort_object_congr_aux : ∀ (n : Nat) (d1 d2 : J), sizeOf d1 < n →
    sizeOf d2 < n → wfKeys d1 = true → wfKeys d2 = true →
    mapsBEq d1 d2 = true → sort_object d1 = sort_object d2 := by
  intro n
  induction n with
  | zero => intro d1 d2 hs; omega
  | succ n ih =>
    intro d1 d2 hs1 hs2 w1 w2 he
    cases d1 with
    | null =>
      cases d2 <;> simp [mapsBEq.eq_def] at he <;> rfl
    | jbool a =>
      cases d2 <;> simp [mapsBEq.eq_def] at he
      rw [he]
    | num a =>
      cases d2 <;> simp [mapsBEq.eq_def] at he
      rw [he]
    | fnum a b c =>
      cases d2 <;> simp [mapsBEq.eq_def] at he
      rw [he.1.1, he.1.2, he.2]
    | jstr a =>
      cases d2 <;> simp [mapsBEq.eq_def] at he
      rw [he]
    | arr l1 =>
      cases d2 <;> simp [mapsBEq.eq_def] at he
      rename_i l2
      rw [sort_object_arr, sort_object_arr]
      have hl1 : sizeOf l1 < n := by
        simp only [J.arr.sizeOf_spec] at hs1
        omega
      have hl2 : sizeOf l2 < n := by
        simp only [J.arr.sizeOf_spec] at hs2
        omega
      congr 1
      exact arr_map_congr n ih l1 l2 hl1 hl2 (wfKeys_arr_elim l1 w1)
        (wfKeys_arr_elim l2 w2) he
    | obj l1 =>
      cases d2 <;> simp [mapsBEq.eq_def] at he
      rename_i l2
      rw [sort_object_obj, sort_object_obj]
      obtain ⟨hnd1, hw1⟩ := wfKeys_obj_elim l1 w1
      obtain ⟨hnd2, hw2⟩ := wfKeys_obj_elim l2 w2
      have hl1 : sizeOf l1 < n := by
        simp only [J.obj.sizeOf_spec] at hs1
        omega
      have hl2 : sizeOf l2 < n := by
        simp only [J.obj.sizeOf_spec] at hs2
        omega
      have hperm := obj_map_perm n ih l1 l2 hl1 hl2 hnd1 hw1 hnd2 hw2
        he.1 he.2
      congr 1
      apply sorted_nodup_keys_perm_eq
      · exact (((List.perm_insertionSort keyLE l1).map _).trans hperm).trans
          ((List.perm_insertionSort keyLE l2).map _).symm
      · exact List.Pairwise.map _ (fun p q h => h)
          (List.sorted_insertionSort keyLE l1)
      · exact List.Pairwise.map _ (fun p q h => h)
          (List.sorted_insertionSort keyLE l2)
      · have hk : ((List.insertionSort keyLE l1).map
            (fun p => (p.1, sort_object p.2))).map Prod.fst =
            (List.insertionSort keyLE l1).map Prod.fst := by
          simp [List.map_map, Function.comp]
        rw [hk]
        exact ((List.perm_insertionSort keyLE l1).map Prod.fst).nodup_iff.2 hnd1


/-- C10: for every two input dictionaries that are equal as maps (same
keys bound to map-equal values at every nesting level, regardless of key
insertion order, keys duplicate-free as Python dicts guarantee),
`to_deterministic_json` produces identical output strings and
`get_compose_hash` produces identical digests, because `sort_object`
recursively sorts all dict keys before serialization. -/
theorem c10_deterministic_json_and_hash (d1 d2 : J) (w1 : wfKeys d1 = true)
    (w2 : wfKeys d2 = true) (he : mapsBEq d1 d2 = true) :
    to_deterministic_json d1 = to_deterministic_json d2 ∧
    ∀ sha256hex : String → String,
      get_compose_hash sha256hex d1 = get_compose_hash sha256hex d2 := by
  have hcanon : sort_object d1 = sort_object d2 :=
    sort_object_congr_aux (sizeOf d1 + sizeOf d2 + 1) d1 d2 (by omega)
      (by omega) w1 w2 he
  constructor
  · unfold to_deterministic_json
    rw [hcanon]
  · intro f
    unfold get_compose_hash to_deterministic_json
    rw [hcanon]

/-- First of two map-equal dictionaries differing in key order. -/
def dA : J :=
  .obj [("b", .num 2), ("a", .arr [.obj [("y", .jstr "v"), ("x", .null)]])]

/-- Second of two map-equal dictionaries differing in key order. -/
def dB : J :=
  .obj [("a", .arr [.obj [("x", .null), ("y", .jstr "v")]]), ("b", .num 2)]

/-- Witness for C10 at two concrete nested dictionaries. -/
theorem c10_deterministic_json_and_hash_witness :
    to_deterministic_json dA = to_deterministic_json dB ∧
    ∀ sha256hex : String → String,
      get_compose_hash sha256hex dA = get_compose_hash sha256hex dB :=
  c10_deterministic_json_and_hash dA dB
    (by simp [dA, wfKeys, wfArr, wfEntries, nodupKeys, keyAbsent])
    (by simp [dB, wfKeys, wfArr, wfEntries, nodupKeys, keyAbsent])
    (by simp [dA, dB, mapsBEq, objSub, memEq, arrEq])

end ComposeHash
